import Mathlib

/-!
# Verification of the file-matching and conflict-resolution engine of
# `write_description_metadata.py`

This development gives a shallow embedding of the matching core of the
repository `brodkewitz/brphoto-metadata-tools`:

* `select_preferred_path` — the pure priority resolver (source lines 127-185),
* `find_matching_files` — the directory scanner (source lines 188-242),

together with the module-level constants they use (source lines 32-48), and
proves the behavioural properties stated in the specification.

Python values are modelled as follows: `pathlib.Path` becomes `FsPath`
(directory components plus the final component's stem and suffix, which are
the only observations the code makes of a path); the `TYPE_PRIORITIES` dict
becomes a total function into `Option Nat` (`none` models `KeyError`);
`click.echo`/`click.secho` diagnostics become structured `Event` /
error-constructor payloads carrying exactly the values interpolated into the
messages; a raised exception or `SystemExit` becomes the `Except.error` arm
of the return type.
-/

namespace BrPhotoMetadata

/-- Models `pathlib.Path` restricted to the operations the matching core
performs on it: the parent directory components (`dirs`), and the final
component split into `stem` (`Path.stem`) and `suffix` (`Path.suffix`,
including the leading dot; `""` when the name has no extension). -/
structure FsPath where
  dirs : List String
  stem : String
  suffix : String
deriving DecidableEq, Repr

/-- `XMP_TYPES: set = {".xmp"}` (source line 32). -/
def XMP_TYPES : List String := [".xmp"]

/-- `RAW_TYPES: set = {".arw", ".cr2", ".dng", ".raf", ".nef"}` (source line 33). -/
def RAW_TYPES : List String := [".arw", ".cr2", ".dng", ".raf", ".nef"]

/-- `JPG_TYPES: set = {".jpg", ".jpeg", ".heic"}` (source line 34). -/
def JPG_TYPES : List String := [".jpg", ".jpeg", ".heic"]

/-- `ALL_AVAILABLE_TYPES = XMP_TYPES | RAW_TYPES | JPG_TYPES` (source line 35). -/
def ALL_AVAILABLE_TYPES : List String := XMP_TYPES ++ RAW_TYPES ++ JPG_TYPES

/-- The `TYPE_PRIORITIES` dict (source lines 36-40): extension → 3 for XMP,
2 for RAW, 1 for JPG.  `none` models a `KeyError` on lookup of an
unrecognized extension.  The three key sets are pairwise disjoint, so the
if-chain agrees with the dict however it is ordered. -/
def TYPE_PRIORITIES (ext : String) : Option Nat :=
  if ext ∈ XMP_TYPES then some 3
  else if ext ∈ RAW_TYPES then some 2
  else if ext ∈ JPG_TYPES then some 1
  else none

/-- Python `str.lower()` as applied by the code to extension strings,
modelled character-wise over the string's characters (`Char.toLower` maps
`A`-`Z` to `a`-`z` and leaves everything else unchanged, which agrees with
Python on the ASCII extensions this program handles). -/
def strToLower (s : String) : String := ⟨s.data.map Char.toLower⟩

/-- `TYPE_PRIORITIES[path.suffix.lower()]`: the classification the code
applies to a path's suffix is always taken after lower-casing. -/
def classifySuffix (suffix : String) : Option Nat :=
  TYPE_PRIORITIES (strToLower suffix)

/-- The `Image` dataclass (source lines 43-48). -/
structure Image where
  line_no : Nat
  input_file_path : FsPath
  input_desc : String
  found_file_path : Option FsPath := none
deriving DecidableEq, Repr

/-- The diagnostic events `select_preferred_path` emits on its success paths:
`click.echo(f"Found {stem} -> {path}")` (line 167),
`click.echo(f"Updating {stem} -> {path}")` (line 182), or nothing when the
existing selection is kept (line 185). -/
inductive Event where
  | found
  | updating
  | kept
deriving DecidableEq, Repr

/-- The failure modes of `select_preferred_path`.

* `unavailableType` — `raise ValueError(f"Unavailable file type: {new_path}")`
  (line 136);
* `sameRank` — `raise ValueError("Comparing two files of same rank: ...")`
  carrying both paths (lines 151-156);
* `keyError` — a `KeyError` from the `TYPE_PRIORITIES` dict lookup
  (lines 160, 163);
* `ambiguousJpg` — the user-facing `SystemExit(1)` after the message
  `f"Found both a jpg type and raw/xmp type for {new_path.stem}, will not
  write to both:\n  {cur_path}\n  {new_path}"` (lines 170-179); the payload
  carries exactly the stem and the two paths interpolated into the message. -/
inductive SelectError where
  | unavailableType (p : FsPath)
  | sameRank (cur newP : FsPath)
  | keyError (key : String)
  | ambiguousJpg (stem : String) (cur newP : FsPath)
deriving DecidableEq, Repr

/-- Whether the failure is a propagated Python exception (`ValueError` /
`KeyError`, an internal invariant violation) rather than the user-facing
`SystemExit`. -/
def SelectError.isInternal : SelectError → Bool
  | .unavailableType _ => true
  | .sameRank _ _ => true
  | .keyError _ => true
  | .ambiguousJpg _ _ _ => false

/-- The process exit status produced by the failure: `SystemExit(1)` carries
code 1; a propagated exception carries no exit status of its own. -/
def SelectError.exitCode : SelectError → Option Nat
  | .ambiguousJpg _ _ _ => some 1
  | _ => none

/-- `combined_suffix_set.issubset(RAW_TYPES) or ... JPG_TYPES or ... XMP_TYPES`
(source lines 142-150): `{cs, ns} ⊆ S` unfolds to `cs ∈ S ∧ ns ∈ S`. -/
def sameRankPair (cs ns : String) : Prop :=
  (cs ∈ RAW_TYPES ∧ ns ∈ RAW_TYPES) ∨
  (cs ∈ JPG_TYPES ∧ ns ∈ JPG_TYPES) ∨
  (cs ∈ XMP_TYPES ∧ ns ∈ XMP_TYPES)

instance (cs ns : String) : Decidable (sameRankPair cs ns) := by
  unfold sameRankPair
  infer_instance

/-- `select_preferred_path(cur_path, new_path)` (source lines 127-185).

The Python control flow is reproduced branch by branch:
1. unrecognized `new_path` suffix → `ValueError` (lines 135-136);
2. `cur_path` present and both suffixes in the same type set →
   `ValueError` (lines 141-156);
3. priority lookup (lines 159-163; `cur_path is None` gives priority 0,
   and a dict miss is a `KeyError`, looked up for `cur_path` first);
4. `cur_path_priority == 0` → select `new_path`, "Found" event
   (lines 166-168) — this happens exactly when `cur_path` is `None`,
   since every dict value is 1, 2 or 3;
5. either priority equal to 1 → `SystemExit(1)` with the jpg-conflict
   message (lines 170-179);
6. `new_path_priority > cur_path_priority` → select `new_path`,
   "Updating" event (lines 181-183);
7. otherwise keep `cur_path` (line 185). -/
def select_preferred_path (cur_path : Option FsPath) (new_path : FsPath) :
    Except SelectError (FsPath × Event) :=
  if (strToLower new_path.suffix) ∉ ALL_AVAILABLE_TYPES then
    .error (.unavailableType new_path)
  else
    match cur_path with
    | none =>
      match classifySuffix new_path.suffix with
      | none => .error (.keyError (strToLower new_path.suffix))
      | some _ => .ok (new_path, .found)
    | some cur =>
      if sameRankPair (strToLower cur.suffix) (strToLower new_path.suffix) then
        .error (.sameRank cur new_path)
      else
        match classifySuffix cur.suffix, classifySuffix new_path.suffix with
        | none, _ => .error (.keyError (strToLower cur.suffix))
        | some _, none => .error (.keyError (strToLower new_path.suffix))
        | some curPrio, some newPrio =>
          if curPrio = 1 ∨ newPrio = 1 then
            .error (.ambiguousJpg new_path.stem cur new_path)
          else if newPrio > curPrio then
            .ok (new_path, .updating)
          else
            .ok (cur, .kept)

/-- The evolution of one stem's `found_file_path` when its candidate files
arrive in the given order: exactly the per-stem projection of the scanner's
update `images[stem].found_file_path = select_preferred_path(cur, new)`
(source lines 236-240), with the emitted events collected in order. -/
def resolveSequence : Option FsPath → List FsPath → Except SelectError (Option FsPath × List Event)
  | cur, [] => .ok (cur, [])
  | cur, p :: rest =>
    match select_preferred_path cur p with
    | .error e => .error e
    | .ok (q, ev) =>
      match resolveSequence (some q) rest with
      | .error e => .error e
      | .ok (final, evs) => .ok (final, ev :: evs)

/-- One file entry as yielded by the directory walk: its `stem` and `suffix`
(the only observations `find_matching_files` makes of a file name; the full
name is `stem ++ suffix` per `pathlib` semantics). -/
structure FileName where
  stem : String
  suffix : String
deriving DecidableEq, Repr

/-- A directory tree, as traversed by `search_dir.walk()`: a name, the
subdirectories and the plain files it directly contains. -/
inductive Dir where
  | node (name : String) (subdirs : List Dir) (files : List FileName)
deriving Repr

def Dir.name : Dir → String
  | .node n _ _ => n

def Dir.subdirs : Dir → List Dir
  | .node _ s _ => s

def Dir.files : Dir → List FileName
  | .node _ _ f => f

/-- `ignore_dirs = {"CaptureOne"}` (source line 202). -/
def ignore_dirs : List String := ["CaptureOne"]

mutual

/-- `search_dir.walk()` with the in-place pruning of line 216
(`subdirs[:] = [d for d in subdirs if d not in ignore_dirs]`): a top-down
walk yielding, for every directory reached, its path components and its
files; a subdirectory named in `ignore_dirs` is not descended into, which is
what the in-place filtering of the `subdirs` list achieves in the source.
The root directory itself is always walked, whatever its name, because the
pruning applies only to subdirectory lists. -/
def walk (parents : List String) : Dir → List (List String × List FileName)
  | .node n subs fs =>
    (parents ++ [n], fs) :: walkSubs (parents ++ [n]) subs

/-- The walk continued over a pruned subdirectory list, in order. -/
def walkSubs (here : List String) : List Dir → List (List String × List FileName)
  | [] => []
  | d :: rest =>
    (if d.name ∈ ignore_dirs then [] else walk here d) ++ walkSubs here rest

end

/-- The sequence of `(current_dir, file)` pairs examined by the scan loop
(source lines 210-221), in order: for each directory yielded by the walk,
its files in order. -/
def walkFiles (search_dir : Dir) : List (List String × FileName) :=
  ((walk [] search_dir).map (fun e => e.2.map (fun f => (e.1, f)))).flatten

mutual

/-- The tree with every subdirectory named in `ignore_dirs` removed outright,
at every depth (the root is kept whatever its name).  Used to state that the
scan never looks inside such directories. -/
def pruneIgnored : Dir → Dir
  | .node n subs fs => .node n (pruneSubs subs) fs

def pruneSubs : List Dir → List Dir
  | [] => []
  | d :: rest =>
    (if d.name ∈ ignore_dirs then [] else [pruneIgnored d]) ++ pruneSubs rest

end

/-- The mutable state of one scan: the caller's stem-keyed record table
(`images`, a dict with unique keys, modelled as an association list that
keeps the dict's entry order) and the examined-file counter (`scanned`,
source line 201). -/
structure ScanState where
  images : List (String × Image)
  scanned : Nat
deriving DecidableEq, Repr

/-- The failure modes of `find_matching_files`.

* `scanLimit` — the user-facing `SystemExit(1)` after
  `f"Aborted after scanning {max_scan_items} files."` (lines 222-228);
  the payload carries the `max_scan_items` value interpolated into the
  message;
* `fromSelect` — a failure propagated out of `select_preferred_path`. -/
inductive ScanError where
  | scanLimit (limit : Nat)
  | fromSelect (e : SelectError)
deriving DecidableEq, Repr

/-- The process exit status of a scan failure. -/
def ScanError.exitCode : ScanError → Option Nat
  | .scanLimit _ => some 1
  | .fromSelect e => e.exitCode

/-- Whether the scan failure is a propagated internal exception. -/
def ScanError.isInternal : ScanError → Bool
  | .scanLimit _ => false
  | .fromSelect e => e.isInternal

/-- Dict lookup `images[stem]` / the membership test
`file.stem not in images.keys()` (exact, case-sensitive string equality,
as for Python dict keys). -/
def lookupImg : List (String × Image) → String → Option Image
  | [], _ => none
  | kv :: rest, s => if kv.1 = s then some kv.2 else lookupImg rest s

/-- The in-place field assignment
`images[stem].found_file_path = p` (source line 238): every entry keyed by
`stem` gets its `found_file_path` replaced, all other entries and all other
fields are untouched, and the table keeps its length and key order. -/
def updateFound (images : List (String × Image)) (stem : String) (p : Option FsPath) :
    List (String × Image) :=
  images.map (fun kv =>
    if kv.1 = stem then (kv.1, { kv.2 with found_file_path := p }) else kv)

/-- The effective allowed-extension set (source lines 204-208): a copy of
`ALL_AVAILABLE_TYPES`, minus `JPG_TYPES` when `ignore_jpg` is set. -/
def file_type_filter (ignore_jpg : Bool) : List String :=
  if ignore_jpg then ALL_AVAILABLE_TYPES.filter (fun t => t ∉ JPG_TYPES)
  else ALL_AVAILABLE_TYPES

/-- One iteration of the inner loop of `find_matching_files`
(source lines 218-240) on the examined file `entry`:

1. `scanned += 1` — unconditionally, match or not (line 221);
2. `scanned > max_scan_items` → `SystemExit(1)` (lines 222-228);
3. suffix (lower-cased) not in the effective filter → skip (lines 229-231);
4. stem not a key of `images` → skip (lines 232-233);
5. otherwise `select_preferred_path(images[stem].found_file_path,
   current_dir / file.name)`; a failure propagates, a success is stored
   back into `found_file_path` (lines 236-240).

An error carries the state as it stands at the raise: the counter already
incremented, the table with all previously stored matches (Python raises
out of the loop without undoing prior in-place mutations). -/
def scanStep (ftf : List String) (max_scan_items : Nat)
    (entry : List String × FileName) (st : ScanState) :
    Except (ScanError × ScanState) ScanState :=
  if st.scanned + 1 > max_scan_items then
    .error (.scanLimit max_scan_items, ⟨st.images, st.scanned + 1⟩)
  else if (strToLower entry.2.suffix) ∉ ftf then
    .ok ⟨st.images, st.scanned + 1⟩
  else
    match lookupImg st.images entry.2.stem with
    | none => .ok ⟨st.images, st.scanned + 1⟩
    | some img =>
      match select_preferred_path img.found_file_path ⟨entry.1, entry.2.stem, entry.2.suffix⟩ with
      | .error e => .error (.fromSelect e, ⟨st.images, st.scanned + 1⟩)
      | .ok (p, _) => .ok ⟨updateFound st.images entry.2.stem (some p), st.scanned + 1⟩

/-- The inner loop of `find_matching_files` run over a list of examined
files, stopping at the first failure. -/
def scanList (ftf : List String) (max_scan_items : Nat) :
    List (List String × FileName) → ScanState → Except (ScanError × ScanState) ScanState
  | [], st => .ok st
  | e :: rest, st =>
    match scanStep ftf max_scan_items e st with
    | .error err => .error err
    | .ok st1 => scanList ftf max_scan_items rest st1

/-- `find_matching_files(search_dir, images, ignore_jpg, max_scan_items)`
(source lines 188-242): walk the tree, fold every examined file through the
resolver, and return the (threaded, in-place mutated) record table; a raise
aborts the whole scan, carrying the state at the raise. -/
def find_matching_files (search_dir : Dir) (images : List (String × Image))
    (ignore_jpg : Bool) (max_scan_items : Nat) :
    Except (ScanError × ScanState) (List (String × Image)) :=
  match scanList (file_type_filter ignore_jpg) max_scan_items (walkFiles search_dir)
      ⟨images, 0⟩ with
  | .error err => .error err
  | .ok st => .ok st.images

/-- The record table visible in a step outcome, success or failure. -/
def stepImages : Except (ScanError × ScanState) ScanState → List (String × Image)
  | .ok st => st.images
  | .error (_, st) => st.images

/-- The record table visible in a scan outcome, success or failure. -/
def outcomeImages : Except (ScanError × ScanState) (List (String × Image)) →
    List (String × Image)
  | .ok imgs => imgs
  | .error (_, st) => st.images

/-- The per-entry frame relation of a scan: same stem key, and every `Image`
field other than `found_file_path` unchanged. -/
def frameRel (a b : String × Image) : Prop :=
  a.1 = b.1 ∧ a.2.line_no = b.2.line_no ∧
  a.2.input_file_path = b.2.input_file_path ∧ a.2.input_desc = b.2.input_desc

/-- No record of the table has selected a RASTER-class (`JPG_TYPES`) file. -/
def noRasterFound (images : List (String × Image)) : Prop :=
  ∀ e ∈ images, ∀ p, e.2.found_file_path = some p → (strToLower p.suffix) ∉ JPG_TYPES

/-! ## Basic facts about the extension classes and priorities -/

theorem xmp_not_raw {s : String} (h : s ∈ XMP_TYPES) : s ∉ RAW_TYPES := by
  simp [XMP_TYPES] at h
  subst h
  decide

theorem xmp_not_jpg {s : String} (h : s ∈ XMP_TYPES) : s ∉ JPG_TYPES := by
  simp [XMP_TYPES] at h
  subst h
  decide

theorem raw_not_xmp {s : String} (h : s ∈ RAW_TYPES) : s ∉ XMP_TYPES := by
  simp [RAW_TYPES] at h
  rcases h with h | h | h | h | h <;> subst h <;> decide

theorem raw_not_jpg {s : String} (h : s ∈ RAW_TYPES) : s ∉ JPG_TYPES := by
  simp [RAW_TYPES] at h
  rcases h with h | h | h | h | h <;> subst h <;> decide

theorem jpg_not_xmp {s : String} (h : s ∈ JPG_TYPES) : s ∉ XMP_TYPES := by
  simp [JPG_TYPES] at h
  rcases h with h | h | h <;> subst h <;> decide

theorem jpg_not_raw {s : String} (h : s ∈ JPG_TYPES) : s ∉ RAW_TYPES := by
  simp [JPG_TYPES] at h
  rcases h with h | h | h <;> subst h <;> decide

theorem prio_of_xmp {s : String} (h : s ∈ XMP_TYPES) : TYPE_PRIORITIES s = some 3 := by
  simp [TYPE_PRIORITIES, h]

theorem prio_of_raw {s : String} (h : s ∈ RAW_TYPES) : TYPE_PRIORITIES s = some 2 := by
  simp [TYPE_PRIORITIES, h, raw_not_xmp h]

theorem prio_of_jpg {s : String} (h : s ∈ JPG_TYPES) : TYPE_PRIORITIES s = some 1 := by
  simp [TYPE_PRIORITIES, h, jpg_not_xmp h, jpg_not_raw h]

theorem prio_eq_three {s : String} (h : TYPE_PRIORITIES s = some 3) : s ∈ XMP_TYPES := by
  unfold TYPE_PRIORITIES at h
  split_ifs at h <;> simp_all

theorem prio_eq_two {s : String} (h : TYPE_PRIORITIES s = some 2) : s ∈ RAW_TYPES := by
  unfold TYPE_PRIORITIES at h
  split_ifs at h <;> simp_all

theorem prio_eq_one {s : String} (h : TYPE_PRIORITIES s = some 1) : s ∈ JPG_TYPES := by
  unfold TYPE_PRIORITIES at h
  split_ifs at h <;> simp_all

theorem prio_values {s : String} {v : Nat} (h : TYPE_PRIORITIES s = some v) :
    v = 1 ∨ v = 2 ∨ v = 3 := by
  unfold TYPE_PRIORITIES at h
  split_ifs at h <;> simp_all

theorem mem_all_iff {s : String} :
    s ∈ ALL_AVAILABLE_TYPES ↔ (TYPE_PRIORITIES s).isSome := by
  unfold ALL_AVAILABLE_TYPES TYPE_PRIORITIES
  simp only [List.mem_append]
  split_ifs with h1 h2 h3 <;> simp_all

theorem sameRankPair_prio_eq {cs ns : String} (h : sameRankPair cs ns) :
    TYPE_PRIORITIES cs = TYPE_PRIORITIES ns := by
  rcases h with ⟨h1, h2⟩ | ⟨h1, h2⟩ | ⟨h1, h2⟩
  · rw [prio_of_raw h1, prio_of_raw h2]
  · rw [prio_of_jpg h1, prio_of_jpg h2]
  · rw [prio_of_xmp h1, prio_of_xmp h2]

theorem prio_eq_sameRank {cs ns : String} {v : Nat}
    (hc : TYPE_PRIORITIES cs = some v) (hn : TYPE_PRIORITIES ns = some v) :
    sameRankPair cs ns := by
  rcases prio_values hc with rfl | rfl | rfl
  · exact Or.inr (Or.inl ⟨prio_eq_one hc, prio_eq_one hn⟩)
  · exact Or.inl ⟨prio_eq_two hc, prio_eq_two hn⟩
  · exact Or.inr (Or.inr ⟨prio_eq_three hc, prio_eq_three hn⟩)

/-! ## Reduction lemmas for `select_preferred_path` -/

/-- On a first observation with a recognized extension, the candidate is
selected with a "Found" event. -/
theorem select_none {n : FsPath} {np : Nat}
    (hn : TYPE_PRIORITIES (strToLower n.suffix) = some np) :
    select_preferred_path none n = .ok (n, .found) := by
  have hnA : (strToLower n.suffix) ∈ ALL_AVAILABLE_TYPES := mem_all_iff.2 (by rw [hn]; rfl)
  simp [select_preferred_path, classifySuffix, hnA, hn]

/-- With a current selection present and two recognized suffixes of distinct
priorities, `select_preferred_path` reduces to its priority comparison. -/
theorem select_some_reduce {c n : FsPath} {cp np : Nat}
    (hc : TYPE_PRIORITIES (strToLower c.suffix) = some cp)
    (hn : TYPE_PRIORITIES (strToLower n.suffix) = some np)
    (hne : cp ≠ np) :
    select_preferred_path (some c) n =
      if cp = 1 ∨ np = 1 then .error (.ambiguousJpg n.stem c n)
      else if np > cp then .ok (n, .updating)
      else .ok (c, .kept) := by
  have hnA : (strToLower n.suffix) ∈ ALL_AVAILABLE_TYPES := mem_all_iff.2 (by rw [hn]; rfl)
  have hsr : ¬ sameRankPair (strToLower c.suffix) (strToLower n.suffix) := by
    intro h
    have := sameRankPair_prio_eq h
    rw [hc, hn] at this
    exact hne (Option.some.inj this)
  simp [select_preferred_path, classifySuffix, hnA, hsr, hc, hn]

/-- Whenever `select_preferred_path` succeeds, the selected path is either
the new candidate or the existing current selection — never a third path. -/
theorem select_ok_cases {cur : Option FsPath} {n p : FsPath} {ev : Event}
    (h : select_preferred_path cur n = .ok (p, ev)) :
    p = n ∨ cur = some p := by
  by_cases hA : (strToLower n.suffix) ∉ ALL_AVAILABLE_TYPES
  · unfold select_preferred_path at h
    rw [if_pos hA] at h
    cases h
  · cases cur with
    | none =>
      simp only [select_preferred_path, if_neg hA] at h
      cases hcl : classifySuffix n.suffix with
      | none => rw [hcl] at h; cases h
      | some v =>
        rw [hcl] at h
        exact Or.inl (congrArg Prod.fst (Except.ok.inj h)).symm
    | some c =>
      simp only [select_preferred_path, if_neg hA] at h
      by_cases hsr : sameRankPair (strToLower c.suffix) (strToLower n.suffix)
      · rw [if_pos hsr] at h
        cases h
      · rw [if_neg hsr] at h
        cases hc1 : classifySuffix c.suffix with
        | none => rw [hc1] at h; cases h
        | some cp =>
          cases hn1 : classifySuffix n.suffix with
          | none => rw [hc1, hn1] at h; cases h
          | some np2 =>
            rw [hc1, hn1] at h
            have h' :
                (if cp = 1 ∨ np2 = 1 then
                    (Except.error (SelectError.ambiguousJpg n.stem c n) :
                      Except SelectError (FsPath × Event))
                  else if np2 > cp then Except.ok (n, Event.updating)
                  else Except.ok (c, Event.kept)) = Except.ok (p, ev) := h
            split_ifs at h' with h1 h2
            all_goals try cases h'
            all_goals try exact Or.inl rfl
            all_goals try exact Or.inr rfl

/-! ## Claim C1 -/

/-- C1: when one XMP-class and one RAW-class candidate are observed for a
stem, in either order, the XMP path wins: `select_preferred_path` returns
whichever of its two arguments has XMP class, the per-stem resolution of the
two observations ends on the XMP path in both orders, and the "Updating"
event is emitted exactly in the order where the XMP candidate arrives second
and overrides the existing RAW selection. -/
theorem xmp_outranks_raw_in_either_order (x r : FsPath)
    (hx : (strToLower x.suffix) ∈ XMP_TYPES) (hr : (strToLower r.suffix) ∈ RAW_TYPES) :
    select_preferred_path (some r) x = .ok (x, .updating) ∧
    select_preferred_path (some x) r = .ok (x, .kept) ∧
    resolveSequence none [r, x] = .ok (some x, [.found, .updating]) ∧
    resolveSequence none [x, r] = .ok (some x, [.found, .kept]) := by
  have hpx := prio_of_xmp hx
  have hpr := prio_of_raw hr
  have h1 : select_preferred_path (some r) x = .ok (x, .updating) := by
    rw [select_some_reduce hpr hpx (by decide)]
    simp
  have h2 : select_preferred_path (some x) r = .ok (x, .kept) := by
    rw [select_some_reduce hpx hpr (by decide)]
    simp
  have h0r : select_preferred_path none r = .ok (r, .found) := select_none hpr
  have h0x : select_preferred_path none x = .ok (x, .found) := select_none hpx
  refine ⟨h1, h2, ?_, ?_⟩
  · simp [resolveSequence, h0r, h1]
  · simp [resolveSequence, h0x, h2]

/-- Witness for C1 at concrete paths `Selects/IMG_0001.ARW` and
`Selects/IMG_0001.XMP`. -/
theorem xmp_outranks_raw_in_either_order_witness :
    strToLower (FsPath.mk ["Selects"] "IMG_0001" ".XMP").suffix ∈ XMP_TYPES ∧
    strToLower (FsPath.mk ["Selects"] "IMG_0001" ".ARW").suffix ∈ RAW_TYPES ∧
    (select_preferred_path (some (FsPath.mk ["Selects"] "IMG_0001" ".ARW"))
        (FsPath.mk ["Selects"] "IMG_0001" ".XMP") =
      .ok (FsPath.mk ["Selects"] "IMG_0001" ".XMP", .updating) ∧
    select_preferred_path (some (FsPath.mk ["Selects"] "IMG_0001" ".XMP"))
        (FsPath.mk ["Selects"] "IMG_0001" ".ARW") =
      .ok (FsPath.mk ["Selects"] "IMG_0001" ".XMP", .kept) ∧
    resolveSequence none
        [FsPath.mk ["Selects"] "IMG_0001" ".ARW", FsPath.mk ["Selects"] "IMG_0001" ".XMP"] =
      .ok (some (FsPath.mk ["Selects"] "IMG_0001" ".XMP"), [.found, .updating]) ∧
    resolveSequence none
        [FsPath.mk ["Selects"] "IMG_0001" ".XMP", FsPath.mk ["Selects"] "IMG_0001" ".ARW"] =
      .ok (some (FsPath.mk ["Selects"] "IMG_0001" ".XMP"), [.found, .kept])) :=
  ⟨by decide, by decide,
    xmp_outranks_raw_in_either_order _ _ (by decide) (by decide)⟩

/-! ## Claim C8 -/

/-- C8: when the current selection is absent, `select_preferred_path`
selects the candidate unconditionally (its extension being recognized) and
emits a "Found" event; hence a stem whose only observation during a scan is
that single candidate ends with it as the final `found_file_path`. -/
theorem first_candidate_selected_unconditionally (np : FsPath)
    (h : (strToLower np.suffix) ∈ ALL_AVAILABLE_TYPES) :
    select_preferred_path none np = .ok (np, .found) ∧
    resolveSequence none [np] = .ok (some np, [.found]) := by
  obtain ⟨v, hv⟩ := Option.isSome_iff_exists.1 (mem_all_iff.1 h)
  have h0 := select_none hv
  exact ⟨h0, by simp [resolveSequence, h0]⟩

/-- Witness for C8 at the concrete path `Selects/IMG_0002.JPG`. -/
theorem first_candidate_selected_unconditionally_witness :
    strToLower (FsPath.mk ["Selects"] "IMG_0002" ".JPG").suffix ∈ ALL_AVAILABLE_TYPES ∧
    (select_preferred_path none (FsPath.mk ["Selects"] "IMG_0002" ".JPG") =
      .ok (FsPath.mk ["Selects"] "IMG_0002" ".JPG", .found) ∧
    resolveSequence none [FsPath.mk ["Selects"] "IMG_0002" ".JPG"] =
      .ok (some (FsPath.mk ["Selects"] "IMG_0002" ".JPG"), [.found])) :=
  ⟨by decide, first_candidate_selected_unconditionally _ (by decide)⟩

/-! ## Claim C2 -/

/-- C2: when the current selection and the new candidate are one
RASTER-class file and one RAW- or XMP-class file, in either role,
`select_preferred_path` fails with the user-facing `SystemExit(1)`
(`ambiguousJpg`), whose payload identifies the stem and both conflicting
paths; its exit status is the distinguished non-zero code 1, and it is not
of the internal-exception kind used for same-rank duplicates. -/
theorem raster_conflict_is_fatal_user_error (c n : FsPath)
    (h : ((strToLower c.suffix) ∈ JPG_TYPES ∧
            ((strToLower n.suffix) ∈ RAW_TYPES ∨ (strToLower n.suffix) ∈ XMP_TYPES)) ∨
         ((strToLower n.suffix) ∈ JPG_TYPES ∧
            ((strToLower c.suffix) ∈ RAW_TYPES ∨ (strToLower c.suffix) ∈ XMP_TYPES))) :
    select_preferred_path (some c) n = .error (.ambiguousJpg n.stem c n) ∧
    (SelectError.ambiguousJpg n.stem c n).exitCode = some 1 ∧
    (SelectError.ambiguousJpg n.stem c n).isInternal = false := by
  refine ⟨?_, rfl, rfl⟩
  rcases h with ⟨hc, hn | hn⟩ | ⟨hn, hc | hc⟩
  · rw [select_some_reduce (prio_of_jpg hc) (prio_of_raw hn) (by decide)]
    simp
  · rw [select_some_reduce (prio_of_jpg hc) (prio_of_xmp hn) (by decide)]
    simp
  · rw [select_some_reduce (prio_of_raw hc) (prio_of_jpg hn) (by decide)]
    simp
  · rw [select_some_reduce (prio_of_xmp hc) (prio_of_jpg hn) (by decide)]
    simp

/-- Witness for C2: current `Selects/IMG_0001.ARW` against candidate
`Selects/IMG_0001.JPG`. -/
theorem raster_conflict_is_fatal_user_error_witness :
    ((strToLower (FsPath.mk ["Selects"] "IMG_0001" ".ARW").suffix ∈ JPG_TYPES ∧
        (strToLower (FsPath.mk ["Selects"] "IMG_0001" ".JPG").suffix ∈ RAW_TYPES ∨
         strToLower (FsPath.mk ["Selects"] "IMG_0001" ".JPG").suffix ∈ XMP_TYPES)) ∨
     (strToLower (FsPath.mk ["Selects"] "IMG_0001" ".JPG").suffix ∈ JPG_TYPES ∧
        (strToLower (FsPath.mk ["Selects"] "IMG_0001" ".ARW").suffix ∈ RAW_TYPES ∨
         strToLower (FsPath.mk ["Selects"] "IMG_0001" ".ARW").suffix ∈ XMP_TYPES))) ∧
    (select_preferred_path (some (FsPath.mk ["Selects"] "IMG_0001" ".ARW"))
        (FsPath.mk ["Selects"] "IMG_0001" ".JPG") =
      .error (.ambiguousJpg "IMG_0001" (FsPath.mk ["Selects"] "IMG_0001" ".ARW")
        (FsPath.mk ["Selects"] "IMG_0001" ".JPG")) ∧
    (SelectError.ambiguousJpg "IMG_0001" (FsPath.mk ["Selects"] "IMG_0001" ".ARW")
        (FsPath.mk ["Selects"] "IMG_0001" ".JPG")).exitCode = some 1 ∧
    (SelectError.ambiguousJpg "IMG_0001" (FsPath.mk ["Selects"] "IMG_0001" ".ARW")
        (FsPath.mk ["Selects"] "IMG_0001" ".JPG")).isInternal = false) :=
  ⟨Or.inr ⟨by decide, Or.inl (by decide)⟩,
    raster_conflict_is_fatal_user_error
      (FsPath.mk ["Selects"] "IMG_0001" ".ARW")
      (FsPath.mk ["Selects"] "IMG_0001" ".JPG")
      (Or.inr ⟨by decide, Or.inl (by decide)⟩)⟩

/-! ## Claim C3 -/

/-- C3: assuming any current selection's extension is recognized,
`select_preferred_path` fails with an internal invariant error (a propagated
exception, not the user-facing `SystemExit`) if and only if the candidate's
extension lies outside the three recognized classes, or the current
selection exists and the two extensions belong to the same class; in
particular a same-rank duplicate always errors and is never silently
resolved. -/
theorem internal_invariant_error_iff (cur : Option FsPath) (np : FsPath)
    (hcur : ∀ c, cur = some c → (strToLower c.suffix) ∈ ALL_AVAILABLE_TYPES) :
    (∃ e, select_preferred_path cur np = .error e ∧ e.isInternal = true) ↔
      ((strToLower np.suffix) ∉ ALL_AVAILABLE_TYPES ∨
       ∃ c, cur = some c ∧
         sameRankPair (strToLower c.suffix) (strToLower np.suffix)) := by
  by_cases hnp : (strToLower np.suffix) ∈ ALL_AVAILABLE_TYPES
  · obtain ⟨p, hp⟩ := Option.isSome_iff_exists.1 (mem_all_iff.1 hnp)
    cases cur with
    | none =>
      have hsel : select_preferred_path none np = .ok (np, .found) := select_none hp
      constructor
      · rintro ⟨e, he, _⟩
        rw [hsel] at he
        cases he
      · rintro (h | ⟨c, hc, _⟩)
        · exact absurd hnp h
        · cases hc
    | some c =>
      have hcA := hcur c rfl
      obtain ⟨cp, hcp⟩ := Option.isSome_iff_exists.1 (mem_all_iff.1 hcA)
      by_cases hsr : sameRankPair (strToLower c.suffix) (strToLower np.suffix)
      · have hsel : select_preferred_path (some c) np = .error (.sameRank c np) := by
          simp only [select_preferred_path, if_neg (not_not_intro hnp)]
          rw [if_pos hsr]
        constructor
        · intro _
          exact Or.inr ⟨c, rfl, hsr⟩
        · intro _
          exact ⟨.sameRank c np, hsel, rfl⟩
      · have hne : cp ≠ p := by
          intro h
          subst h
          exact hsr (prio_eq_sameRank hcp hp)
        have hsel := select_some_reduce hcp hp hne
        constructor
        · rintro ⟨e, he, hint⟩
          rw [hsel] at he
          split_ifs at he with h1 h2
          all_goals cases he
          all_goals simp [SelectError.isInternal] at hint
        · rintro (h | ⟨c2, hc2, hsr2⟩)
          · exact absurd hnp h
          · injection hc2 with hc3
            subst hc3
            exact absurd hsr2 hsr
  · have hsel : select_preferred_path cur np = .error (.unavailableType np) := by
      unfold select_preferred_path
      rw [if_pos hnp]
    constructor
    · intro _
      exact Or.inl hnp
    · intro _
      exact ⟨.unavailableType np, hsel, rfl⟩

/-- Witness for C3 at a concrete same-rank duplicate: current `IMG_0001.arw`
against candidate `IMG_0001.nef` (both RAW-class). -/
theorem internal_invariant_error_iff_witness :
    (∃ e, select_preferred_path (some (FsPath.mk ["Selects"] "IMG_0001" ".arw"))
        (FsPath.mk ["Selects"] "IMG_0001" ".nef") = .error e ∧ e.isInternal = true) ↔
      ((strToLower (FsPath.mk ["Selects"] "IMG_0001" ".nef").suffix) ∉ ALL_AVAILABLE_TYPES ∨
       ∃ c, some (FsPath.mk ["Selects"] "IMG_0001" ".arw") = some c ∧
         sameRankPair (strToLower c.suffix)
           (strToLower (FsPath.mk ["Selects"] "IMG_0001" ".nef").suffix)) :=
  internal_invariant_error_iff _ _ (by
    intro c h
    injection h with h2
    subst h2
    decide)

/-! ## The walk never enters an ignored directory (claim C6) -/

theorem pruneIgnored_name (d : Dir) : (pruneIgnored d).name = d.name := by
  cases d with
  | node n subs fs => rfl

mutual

theorem walk_pruneIgnored (parents : List String) (d : Dir) :
    walk parents (pruneIgnored d) = walk parents d := by
  cases d with
  | node n subs fs =>
    rw [pruneIgnored, walk, walk, walkSubs_pruneSubs]

theorem walkSubs_pruneSubs (here : List String) (subs : List Dir) :
    walkSubs here (pruneSubs subs) = walkSubs here subs := by
  cases subs with
  | nil => rfl
  | cons d rest =>
    rw [pruneSubs]
    by_cases hd : d.name ∈ ignore_dirs
    · rw [if_pos hd, List.nil_append, walkSubs_pruneSubs here rest, walkSubs, if_pos hd,
        List.nil_append]
    · rw [if_neg hd, List.singleton_append, walkSubs, if_neg (pruneIgnored_name d ▸ hd),
        walk_pruneIgnored here d, walkSubs_pruneSubs here rest, walkSubs, if_neg hd]

end

mutual

theorem walk_path_shape (p : List String) (d : Dir) :
    ∀ e ∈ walk p d, ∃ tail, e.1 = p ++ d.name :: tail ∧ ∀ x ∈ tail, x ∉ ignore_dirs := by
  cases d with
  | node n subs fs =>
    intro e he
    rw [walk] at he
    rcases List.mem_cons.1 he with rfl | hmem
    · exact ⟨[], by simp [Dir.name], by simp⟩
    · obtain ⟨nm, tail, hnm, hpath, htail⟩ := walkSubs_path_shape (p ++ [n]) subs e hmem
      refine ⟨nm :: tail, ?_, ?_⟩
      · rw [hpath]
        simp [Dir.name]
      · intro x hx
        rcases List.mem_cons.1 hx with rfl | hx2
        · exact hnm
        · exact htail x hx2

theorem walkSubs_path_shape (here : List String) (subs : List Dir) :
    ∀ e ∈ walkSubs here subs, ∃ nm tail, nm ∉ ignore_dirs ∧
      e.1 = here ++ nm :: tail ∧ ∀ x ∈ tail, x ∉ ignore_dirs := by
  cases subs with
  | nil =>
    intro e he
    rw [walkSubs] at he
    exact absurd he (List.not_mem_nil e)
  | cons d rest =>
    intro e he
    rw [walkSubs] at he
    rcases List.mem_append.1 he with h1 | h2
    · by_cases hd : d.name ∈ ignore_dirs
      · rw [if_pos hd] at h1
        cases h1
      · rw [if_neg hd] at h1
        obtain ⟨tail, hpath, htail⟩ := walk_path_shape here d e h1
        exact ⟨d.name, tail, hd, hpath, htail⟩
    · exact walkSubs_path_shape here rest e h2

end

/-- C6: directories named with the single reserved vendor-workspace name
(`"CaptureOne"`, the sole member of `ignore_dirs`) are never descended into
by the scan, at any depth: physically deleting every such subdirectory —
with all the files inside it, whatever their stems — from the tree before
scanning (`pruneIgnored`) leaves the entire result of `find_matching_files`
unchanged, so files inside such directories are never examined, never
counted toward the scan budget, and never matched; moreover every examined
file's directory path consists of the root followed only of components that
are not reserved names. -/
theorem capture_one_never_scanned (search_dir : Dir) (images : List (String × Image))
    (ignore_jpg : Bool) (max_scan_items : Nat) :
    (find_matching_files (pruneIgnored search_dir) images ignore_jpg max_scan_items =
      find_matching_files search_dir images ignore_jpg max_scan_items) ∧
    (∀ pr ∈ walkFiles search_dir, ∃ tail, pr.1 = search_dir.name :: tail ∧
      ∀ x ∈ tail, x ∉ ignore_dirs) := by
  constructor
  · unfold find_matching_files walkFiles
    rw [walk_pruneIgnored]
  · intro pr hpr
    unfold walkFiles at hpr
    obtain ⟨l, hl, hprl⟩ := List.mem_flatten.1 hpr
    obtain ⟨e, he, rfl⟩ := List.mem_map.1 hl
    obtain ⟨f, hf, rfl⟩ := List.mem_map.1 hprl
    obtain ⟨tail, hpath, htail⟩ := walk_path_shape [] search_dir e he
    exact ⟨tail, by simpa using hpath, htail⟩

/-! ## Generic facts about the scan loop -/

theorem frameRel_refl (a : String × Image) : frameRel a a :=
  ⟨rfl, rfl, rfl, rfl⟩

theorem frameRel_trans {a b c : String × Image} (h1 : frameRel a b) (h2 : frameRel b c) :
    frameRel a c :=
  ⟨h1.1.trans h2.1, h1.2.1.trans h2.2.1, h1.2.2.1.trans h2.2.2.1, h1.2.2.2.trans h2.2.2.2⟩

theorem forall₂_frameRel_refl (l : List (String × Image)) : List.Forall₂ frameRel l l := by
  induction l with
  | nil => exact .nil
  | cons a rest ih => exact .cons (frameRel_refl a) ih

theorem forall₂_frameRel_trans {l1 l2 l3 : List (String × Image)}
    (h12 : List.Forall₂ frameRel l1 l2) (h23 : List.Forall₂ frameRel l2 l3) :
    List.Forall₂ frameRel l1 l3 := by
  induction h12 generalizing l3 with
  | nil =>
    cases h23
    exact .nil
  | cons h t ih =>
    cases h23 with
    | cons h' t' => exact .cons (frameRel_trans h h') (ih t')

theorem updateFound_frame (l : List (String × Image)) (k : String) (p : Option FsPath) :
    List.Forall₂ frameRel l (updateFound l k p) := by
  induction l with
  | nil => exact .nil
  | cons a rest ih =>
    simp only [updateFound, List.map_cons]
    refine .cons ?_ ih
    by_cases hk : a.1 = k
    · simp [hk, frameRel]
    · simp [hk, frameRel_refl]

theorem scanList_append (ftf : List String) (m : Nat)
    (l1 l2 : List (List String × FileName)) (st0 : ScanState) :
    scanList ftf m (l1 ++ l2) st0 =
      match scanList ftf m l1 st0 with
      | .error e => .error e
      | .ok st => scanList ftf m l2 st := by
  induction l1 generalizing st0 with
  | nil => simp [scanList]
  | cons e rest ih =>
    simp only [List.cons_append, scanList]
    cases scanStep ftf m e st0 with
    | error err => rfl
    | ok st1 => exact ih st1

/-- A successful loop iteration increments the examined-file counter by
exactly one, match or not. -/
theorem scanStep_ok_scanned {ftf : List String} {m : Nat}
    {e : List String × FileName} {st st1 : ScanState}
    (h : scanStep ftf m e st = .ok st1) : st1.scanned = st.scanned + 1 := by
  unfold scanStep at h
  split_ifs at h with h1 h2
  all_goals try (cases h; rfl)
  all_goals split at h
  all_goals try (cases h; rfl)
  all_goals split at h
  all_goals try (cases h; rfl)
  all_goals cases h

/-- A failing loop iteration leaves the record table exactly as it was and
carries the already-incremented counter. -/
theorem scanStep_error_state {ftf : List String} {m : Nat}
    {e : List String × FileName} {st st1 : ScanState} {err : ScanError}
    (h : scanStep ftf m e st = .error (err, st1)) :
    st1.images = st.images ∧ st1.scanned = st.scanned + 1 := by
  unfold scanStep at h
  split_ifs at h with h1 h2
  all_goals try (cases h; exact ⟨rfl, rfl⟩)
  all_goals try cases h
  all_goals split at h
  all_goals try (cases h; exact ⟨rfl, rfl⟩)
  all_goals try cases h
  all_goals split at h
  all_goals try (cases h; exact ⟨rfl, rfl⟩)
  all_goals cases h

/-- One loop iteration only rewrites `found_file_path` fields: keys, order,
length and all other fields survive, in the success state and in the state
carried by a failure alike. -/
theorem scanStep_frame (ftf : List String) (m : Nat)
    (e : List String × FileName) (st : ScanState) :
    List.Forall₂ frameRel st.images (stepImages (scanStep ftf m e st)) := by
  unfold scanStep
  split_ifs with h1 h2
  all_goals try exact forall₂_frameRel_refl _
  all_goals split
  all_goals try exact forall₂_frameRel_refl _
  all_goals split
  all_goals try exact forall₂_frameRel_refl _
  all_goals exact updateFound_frame _ _ _

theorem scanList_frame (ftf : List String) (m : Nat) :
    ∀ (l : List (List String × FileName)) (st : ScanState),
      List.Forall₂ frameRel st.images (stepImages (scanList ftf m l st)) := by
  intro l
  induction l with
  | nil =>
    intro st
    exact forall₂_frameRel_refl _
  | cons e rest ih =>
    intro st
    simp only [scanList]
    cases hs : scanStep ftf m e st with
    | error err =>
      have h1 := scanStep_frame ftf m e st
      rw [hs] at h1
      exact h1
    | ok st1 =>
      have h1 := scanStep_frame ftf m e st
      rw [hs] at h1
      exact forall₂_frameRel_trans h1 (ih st1)

theorem lookupImg_updateFound_ne (l : List (String × Image)) (k s : String)
    (p : Option FsPath) (h : k ≠ s) :
    lookupImg (updateFound l k p) s = lookupImg l s := by
  induction l with
  | nil => rfl
  | cons a rest ih =>
    simp only [updateFound, List.map_cons, lookupImg] at *
    by_cases hk : a.1 = k
    · rw [hk]
      simp [h, ih]
    · by_cases hs : a.1 = s <;> simp [hk, hs, Ne.symm h, ih]

theorem lookupImg_mem {l : List (String × Image)} {s : String} {v : Image}
    (h : lookupImg l s = some v) : (s, v) ∈ l := by
  induction l with
  | nil => cases h
  | cons a rest ih =>
    unfold lookupImg at h
    split_ifs at h with hk
    · cases h
      subst hk
      exact List.mem_cons_self _ _
    · exact List.mem_cons_of_mem _ (ih h)

/-- A file whose (lower-cased) suffix lies outside the effective filter, or
whose stem is not literally a key of the table, leaves the table untouched:
so does one that only triggers the budget abort. -/
theorem scanStep_untouched {ftf : List String} {m : Nat}
    {e : List String × FileName} {st : ScanState} {s : String}
    (hcond : ¬(e.2.stem = s ∧ (strToLower e.2.suffix) ∈ ftf)) :
    lookupImg (stepImages (scanStep ftf m e st)) s = lookupImg st.images s := by
  unfold scanStep
  split_ifs with h1 h2
  all_goals try rfl
  all_goals split
  all_goals try rfl
  all_goals split
  all_goals try rfl
  all_goals exact lookupImg_updateFound_ne _ _ _ _ (fun hh => hcond ⟨hh, h2⟩)

theorem scanList_untouched (ftf : List String) (m : Nat) :
    ∀ (l : List (List String × FileName)) (st : ScanState) (s : String),
      (∀ e ∈ l, ¬(e.2.stem = s ∧ (strToLower e.2.suffix) ∈ ftf)) →
      lookupImg (stepImages (scanList ftf m l st)) s = lookupImg st.images s := by
  intro l
  induction l with
  | nil =>
    intro st s _
    rfl
  | cons e rest ih =>
    intro st s hall
    simp only [scanList]
    cases hs : scanStep ftf m e st with
    | error err =>
      have h1 := @scanStep_untouched ftf m e st s
        (hall e (List.mem_cons_self e rest))
      rw [hs] at h1
      exact h1
    | ok st1 =>
      have h1 := @scanStep_untouched ftf m e st s
        (hall e (List.mem_cons_self e rest))
      rw [hs] at h1
      have h2 := ih st1 s (fun f hf => hall f (List.mem_cons_of_mem _ hf))
      rw [h2]
      exact h1

theorem noRasterFound_updateFound {l : List (String × Image)} {k : String}
    {po : Option FsPath} (h0 : noRasterFound l)
    (hp : ∀ q, po = some q → (strToLower q.suffix) ∉ JPG_TYPES) :
    noRasterFound (updateFound l k po) := by
  intro e he p hep
  obtain ⟨a, ha, hfa⟩ := List.mem_map.1 he
  by_cases hk : a.1 = k
  · rw [if_pos hk] at hfa
    subst hfa
    exact hp p hep
  · rw [if_neg hk] at hfa
    subst hfa
    exact h0 a ha p hep

theorem scanStep_noRaster {ftf : List String} {m : Nat}
    {e : List String × FileName} {st : ScanState}
    (hftf : ∀ x ∈ ftf, x ∉ JPG_TYPES) (h0 : noRasterFound st.images) :
    noRasterFound (stepImages (scanStep ftf m e st)) := by
  unfold scanStep
  split_ifs with h1 h2
  all_goals try exact h0
  split
  · exact h0
  next img hlook =>
    split
    · exact h0
    next p ev hsel =>
      apply noRasterFound_updateFound h0
      intro q hq
      injection hq with hq1
      subst hq1
      rcases select_ok_cases hsel with rfl | hcur
      · exact hftf _ h2
      · exact h0 (e.2.stem, img) (lookupImg_mem hlook) p hcur

theorem scanList_noRaster {ftf : List String} {m : Nat}
    (hftf : ∀ x ∈ ftf, x ∉ JPG_TYPES) :
    ∀ (l : List (List String × FileName)) (st : ScanState),
      noRasterFound st.images → noRasterFound (stepImages (scanList ftf m l st)) := by
  intro l
  induction l with
  | nil =>
    intro st h0
    exact h0
  | cons e rest ih =>
    intro st h0
    simp only [scanList]
    cases hs : scanStep ftf m e st with
    | error err =>
      have h1 := @scanStep_noRaster ftf m e st hftf h0
      rw [hs] at h1
      exact h1
    | ok st1 =>
      have h1 := @scanStep_noRaster ftf m e st hftf h0
      rw [hs] at h1
      exact ih st1 h1

/-! ## Claim C4 -/

/-- C4: the examined-file counter increments by exactly one for every file
visited, match or not; as soon as it exceeds `max_scan_items` the scan
terminates at once with the user-facing `scanLimit` failure, reporting the
configured limit (which at the abort equals the number of files fully
scanned), with the counter stopped at `limit + 1` and the table exactly as
the already-processed files left it — the remaining files are never
examined; `scanLimit` carries the distinguished exit status 1 and is not of
the internal-exception kind. -/
theorem scan_budget_enforced :
    (∀ (ftf : List String) (m : Nat) (l : List (List String × FileName))
        (st0 st : ScanState),
        scanList ftf m l st0 = .ok st → st.scanned = st0.scanned + l.length) ∧
    (∀ (ftf : List String) (m : Nat) (l1 : List (List String × FileName))
        (e : List String × FileName) (l2 : List (List String × FileName))
        (st0 st : ScanState),
        scanList ftf m l1 st0 = .ok st → st.scanned = m →
        scanList ftf m (l1 ++ e :: l2) st0 = .error (.scanLimit m, ⟨st.images, m + 1⟩)) ∧
    (∀ m : Nat, (ScanError.scanLimit m).exitCode = some 1 ∧
      (ScanError.scanLimit m).isInternal = false) := by
  refine ⟨?_, ?_, fun m => ⟨rfl, rfl⟩⟩
  · intro ftf m l
    induction l with
    | nil =>
      intro st0 st h
      cases h
      simp
    | cons e rest ih =>
      intro st0 st h
      simp only [scanList] at h
      cases hs : scanStep ftf m e st0 with
      | error err =>
        rw [hs] at h
        cases h
      | ok st1 =>
        rw [hs] at h
        have hst1 := scanStep_ok_scanned hs
        have h2 := ih st1 st h
        rw [h2, hst1, List.length_cons]
        omega
  · intro ftf m l1 e l2 st0 st h1 h2
    rw [scanList_append, h1]
    show scanList ftf m (e :: l2) st = _
    simp only [scanList]
    unfold scanStep
    rw [h2, if_pos (Nat.lt_succ_self m)]

/-- Witness for C4: budget 1, one filtered-out file scanned successfully,
then the abort on the second file, with the third never examined. -/
theorem scan_budget_enforced_witness :
    scanList (file_type_filter false) 1 [([], FileName.mk "a" ".txt")]
      ⟨[], 0⟩ = .ok ⟨[], 1⟩ ∧
    (⟨[], 1⟩ : ScanState).scanned = (⟨[], 0⟩ : ScanState).scanned + 1 ∧
    scanList (file_type_filter false) 1
        ([([], FileName.mk "a" ".txt")] ++
          ([], FileName.mk "b" ".txt") :: [([], FileName.mk "c" ".jpg")])
        ⟨[], 0⟩ =
      .error (.scanLimit 1, ⟨[], 2⟩) ∧
    (ScanError.scanLimit 1).exitCode = some 1 :=
  ⟨rfl,
    scan_budget_enforced.1 (file_type_filter false) 1 [([], FileName.mk "a" ".txt")]
      ⟨[], 0⟩ ⟨[], 1⟩ rfl,
    scan_budget_enforced.2.1 (file_type_filter false) 1 [([], FileName.mk "a" ".txt")]
      ([], FileName.mk "b" ".txt") [([], FileName.mk "c" ".jpg")]
      ⟨[], 0⟩ ⟨[], 1⟩ rfl rfl,
    (scan_budget_enforced.2.2 1).1⟩

/-! ## Claim C5 -/

/-- C5: a completed scan returns the threaded record table itself — the
embedding's rendering of the in-place mutation contract — with every entry
still present, in order, under its key, with `line_no`, `input_file_path`
and `input_desc` untouched (only `found_file_path` may change); and any stem
for which no candidate is observed during the walk keeps its lookup result
unchanged, so a `found_file_path` that started absent stays absent. -/
theorem scan_mutates_only_found_paths
    (search_dir : Dir) (images : List (String × Image)) (ignore_jpg : Bool)
    (max_scan_items : Nat) (out : List (String × Image))
    (hok : find_matching_files search_dir images ignore_jpg max_scan_items = .ok out) :
    List.Forall₂ frameRel images out ∧
    (∀ s : String,
      (∀ e ∈ walkFiles search_dir,
        ¬(e.2.stem = s ∧ (strToLower e.2.suffix) ∈ file_type_filter ignore_jpg)) →
      lookupImg out s = lookupImg images s) := by
  unfold find_matching_files at hok
  cases hsc : scanList (file_type_filter ignore_jpg) max_scan_items
      (walkFiles search_dir) ⟨images, 0⟩ with
  | error err =>
    rw [hsc] at hok
    cases hok
  | ok st =>
    rw [hsc] at hok
    cases hok
    constructor
    · have h1 := scanList_frame (file_type_filter ignore_jpg) max_scan_items
        (walkFiles search_dir) ⟨images, 0⟩
      rw [hsc] at h1
      exact h1
    · intro s hs
      have h1 := scanList_untouched (file_type_filter ignore_jpg) max_scan_items
        (walkFiles search_dir) ⟨images, 0⟩ s hs
      rw [hsc] at h1
      exact h1

/-- Witness for C5 on a concrete one-directory tree with one matched stem
(`IMG_0001` → `photos/IMG_0001.XMP`) and one unmatched stem (`IMG_0002`). -/
theorem scan_mutates_only_found_paths_witness :
    find_matching_files
        (Dir.node "photos" [] [FileName.mk "IMG_0001" ".XMP", FileName.mk "other" ".txt"])
        [("IMG_0001", Image.mk 1 (FsPath.mk [] "IMG_0001" ".ARW") "d1" none),
         ("IMG_0002", Image.mk 2 (FsPath.mk [] "IMG_0002" ".JPG") "d2" none)]
        false 100 =
      .ok
        [("IMG_0001", Image.mk 1 (FsPath.mk [] "IMG_0001" ".ARW") "d1"
            (some (FsPath.mk ["photos"] "IMG_0001" ".XMP"))),
         ("IMG_0002", Image.mk 2 (FsPath.mk [] "IMG_0002" ".JPG") "d2" none)] ∧
    (List.Forall₂ frameRel
        [("IMG_0001", Image.mk 1 (FsPath.mk [] "IMG_0001" ".ARW") "d1" none),
         ("IMG_0002", Image.mk 2 (FsPath.mk [] "IMG_0002" ".JPG") "d2" none)]
        [("IMG_0001", Image.mk 1 (FsPath.mk [] "IMG_0001" ".ARW") "d1"
            (some (FsPath.mk ["photos"] "IMG_0001" ".XMP"))),
         ("IMG_0002", Image.mk 2 (FsPath.mk [] "IMG_0002" ".JPG") "d2" none)] ∧
      (∀ s : String,
        (∀ e ∈ walkFiles
            (Dir.node "photos" [] [FileName.mk "IMG_0001" ".XMP", FileName.mk "other" ".txt"]),
          ¬(e.2.stem = s ∧ (strToLower e.2.suffix) ∈ file_type_filter false)) →
        lookupImg
            [("IMG_0001", Image.mk 1 (FsPath.mk [] "IMG_0001" ".ARW") "d1"
                (some (FsPath.mk ["photos"] "IMG_0001" ".XMP"))),
             ("IMG_0002", Image.mk 2 (FsPath.mk [] "IMG_0002" ".JPG") "d2" none)] s =
          lookupImg
            [("IMG_0001", Image.mk 1 (FsPath.mk [] "IMG_0001" ".ARW") "d1" none),
             ("IMG_0002", Image.mk 2 (FsPath.mk [] "IMG_0002" ".JPG") "d2" none)] s)) :=
  ⟨rfl, scan_mutates_only_found_paths _ _ false 100 _ rfl⟩

/-! ## Claim C7 -/

/-- C7: when `ignore_jpg` is requested the effective allowed-type set is
exactly the recognized extensions minus the RASTER (`JPG_TYPES`) class, and
a scan started from a table containing no RASTER selection never produces
one — in the returned table on success, and equally in the table carried by
an abort: RASTER files are filtered out before ever reaching the resolver,
even for stems with no other candidate. -/
theorem ignore_jpg_never_selects_raster
    (search_dir : Dir) (images : List (String × Image)) (max_scan_items : Nat)
    (h0 : noRasterFound images) :
    (∀ x : String, x ∈ file_type_filter true ↔
      (x ∈ ALL_AVAILABLE_TYPES ∧ x ∉ JPG_TYPES)) ∧
    noRasterFound
      (outcomeImages (find_matching_files search_dir images true max_scan_items)) := by
  have hftf : ∀ x ∈ file_type_filter true, x ∉ JPG_TYPES := by
    intro x hx
    simp [file_type_filter] at hx
    exact hx.2
  refine ⟨fun x => by simp [file_type_filter], ?_⟩
  unfold find_matching_files
  cases hsc : scanList (file_type_filter true) max_scan_items
      (walkFiles search_dir) ⟨images, 0⟩ with
  | error err =>
    have h1 := @scanList_noRaster (file_type_filter true) max_scan_items hftf
      (walkFiles search_dir) ⟨images, 0⟩ h0
    rw [hsc] at h1
    exact h1
  | ok st =>
    have h1 := @scanList_noRaster (file_type_filter true) max_scan_items hftf
      (walkFiles search_dir) ⟨images, 0⟩ h0
    rw [hsc] at h1
    exact h1

/-- Witness for C7: a tree holding only `IMG_0002.JPG` for a pending stem
`IMG_0002`; with `ignore_jpg` the record stays unmatched rather than taking
the raster file. -/
theorem ignore_jpg_never_selects_raster_witness :
    noRasterFound [("IMG_0002", Image.mk 2 (FsPath.mk [] "IMG_0002" ".JPG") "d2" none)] ∧
    ((∀ x : String, x ∈ file_type_filter true ↔
        (x ∈ ALL_AVAILABLE_TYPES ∧ x ∉ JPG_TYPES)) ∧
      noRasterFound
        (outcomeImages (find_matching_files
          (Dir.node "photos" [] [FileName.mk "IMG_0002" ".JPG"])
          [("IMG_0002", Image.mk 2 (FsPath.mk [] "IMG_0002" ".JPG") "d2" none)]
          true 100))) := by
  have h0 : noRasterFound
      [("IMG_0002", Image.mk 2 (FsPath.mk [] "IMG_0002" ".JPG") "d2" none)] := by
    intro e he p hp
    fin_cases he
    cases hp
  exact ⟨h0, ignore_jpg_never_selects_raster _ _ 100 h0⟩

/-! ## Claim C9 -/

/-- C9: when the scan aborts mid-way — on the budget or on a conflict raised
by the resolver — the whole run fails with exactly the failing iteration's
error and state; that state's table is the table as the successfully
processed files left it, so `found_file_path` assignments already made
remain visible and nothing is rolled back, while the files after the failing
one are never processed. -/
theorem abort_preserves_prior_matches
    (ftf : List String) (m : Nat) (l1 : List (List String × FileName))
    (e : List String × FileName) (l2 : List (List String × FileName))
    (st0 st st1 : ScanState) (err : ScanError)
    (h1 : scanList ftf m l1 st0 = .ok st)
    (h2 : scanStep ftf m e st = .error (err, st1)) :
    scanList ftf m (l1 ++ e :: l2) st0 = .error (err, st1) ∧
    st1.images = st.images := by
  refine ⟨?_, (scanStep_error_state h2).1⟩
  rw [scanList_append, h1]
  show scanList ftf m (e :: l2) st = _
  simp only [scanList, h2]

/-- Witness for C9: stem `IMG_0001` is matched by the first file, then the
budget (1) aborts on the second file; the match made before the abort is
still in the error state's table. -/
theorem abort_preserves_prior_matches_witness :
    scanList (file_type_filter false) 1
        [(["photos"], FileName.mk "IMG_0001" ".arw")]
        ⟨[("IMG_0001", Image.mk 1 (FsPath.mk [] "IMG_0001" ".ARW") "d" none)], 0⟩ =
      .ok ⟨[("IMG_0001", Image.mk 1 (FsPath.mk [] "IMG_0001" ".ARW") "d"
          (some (FsPath.mk ["photos"] "IMG_0001" ".arw")))], 1⟩ ∧
    scanStep (file_type_filter false) 1 ([], FileName.mk "x" ".txt")
        ⟨[("IMG_0001", Image.mk 1 (FsPath.mk [] "IMG_0001" ".ARW") "d"
            (some (FsPath.mk ["photos"] "IMG_0001" ".arw")))], 1⟩ =
      .error (.scanLimit 1,
        ⟨[("IMG_0001", Image.mk 1 (FsPath.mk [] "IMG_0001" ".ARW") "d"
            (some (FsPath.mk ["photos"] "IMG_0001" ".arw")))], 2⟩) ∧
    (scanList (file_type_filter false) 1
        ([(["photos"], FileName.mk "IMG_0001" ".arw")] ++
          ([], FileName.mk "x" ".txt") :: [])
        ⟨[("IMG_0001", Image.mk 1 (FsPath.mk [] "IMG_0001" ".ARW") "d" none)], 0⟩ =
      .error (.scanLimit 1,
        ⟨[("IMG_0001", Image.mk 1 (FsPath.mk [] "IMG_0001" ".ARW") "d"
            (some (FsPath.mk ["photos"] "IMG_0001" ".arw")))], 2⟩) ∧
    (⟨[("IMG_0001", Image.mk 1 (FsPath.mk [] "IMG_0001" ".ARW") "d"
        (some (FsPath.mk ["photos"] "IMG_0001" ".arw")))], 2⟩ : ScanState).images =
      (⟨[("IMG_0001", Image.mk 1 (FsPath.mk [] "IMG_0001" ".ARW") "d"
          (some (FsPath.mk ["photos"] "IMG_0001" ".arw")))], 1⟩ : ScanState).images) :=
  ⟨rfl, rfl, abort_preserves_prior_matches _ _ _ _ _ _ _ _ _ rfl rfl⟩

/-! ## Claim C10 -/

/-- C10: stems are matched against the table keys by exact, case-sensitive
string equality — a file whose stem is not literally a key (even one that
matches a key up to letter case) mutates nothing and never reaches
`select_preferred_path` — while suffix classification happens only through
`strToLower`, so two suffixes equal up to case (such as `".XMP"` and
`".xmp"`) are classified identically. -/
theorem stem_exact_match_ext_case_insensitive :
    (∀ (ftf : List String) (m : Nat) (e : List String × FileName) (st : ScanState),
        lookupImg st.images e.2.stem = none →
        stepImages (scanStep ftf m e st) = st.images) ∧
    (∀ s t : String, strToLower s = strToLower t → classifySuffix s = classifySuffix t) ∧
    (classifySuffix ".XMP" = classifySuffix ".xmp" ∧ classifySuffix ".XMP" = some 3) := by
  refine ⟨?_, ?_, by decide, by decide⟩
  · intro ftf m e st hnone
    unfold scanStep
    split_ifs with h1 h2
    all_goals try rfl
    rw [hnone]
    rfl
  · intro s t h
    unfold classifySuffix
    rw [h]

/-- Witness for C10: the table keys the lower-cased stem `img_0001`; the
scanned file has stem `IMG_0001`, differing only in case, and is skipped,
while the suffixes `".XMP"` and `".xmp"` classify identically. -/
theorem stem_exact_match_ext_case_insensitive_witness :
    lookupImg [("img_0001", Image.mk 1 (FsPath.mk [] "img_0001" ".arw") "d" none)]
        "IMG_0001" = none ∧
    strToLower "IMG_0001" = strToLower "img_0001" ∧
    stepImages (scanStep (file_type_filter false) 10 (["d"], FileName.mk "IMG_0001" ".XMP")
        ⟨[("img_0001", Image.mk 1 (FsPath.mk [] "img_0001" ".arw") "d" none)], 0⟩) =
      [("img_0001", Image.mk 1 (FsPath.mk [] "img_0001" ".arw") "d" none)] ∧
    strToLower ".XMP" = strToLower ".xmp" ∧
    classifySuffix ".XMP" = classifySuffix ".xmp" :=
  ⟨by decide, by decide,
    stem_exact_match_ext_case_insensitive.1 (file_type_filter false) 10
      (["d"], FileName.mk "IMG_0001" ".XMP")
      ⟨[("img_0001", Image.mk 1 (FsPath.mk [] "img_0001" ".arw") "d" none)], 0⟩
      (by decide),
    by decide,
    stem_exact_match_ext_case_insensitive.2.1 ".XMP" ".xmp" (by decide)⟩

end BrPhotoMetadata
